import Mathlib

/-!
Verification of `pytube` (`src/pytube/api.py`) against its natural-language
specification.  The Python module is shallowly embedded: pure string
manipulation becomes executable Lean functions over `String` / `List Char`,
Python exceptions become an explicit `PyErr` error type carried in `Except`,
and dictionaries with a fixed key set become structures.  Parts of the
repository that are not present here (`models.py`, `jsinterp.py`) are either
abstracted as parameters or modelled from the specification, as marked.
-/

namespace Pytube

/-- Python exception kinds that the embedded code can raise.  `cipherError`
carries the formatted message (which embeds the underlying cause, as the
source formats the caught exception into the message string). -/
inductive PyErr where
  | typeError
  | keyError
  | valueError
  | indexError
  | unboundLocalError
  | multipleObjectsReturned
  | youTubeError (msg : String)
  | cipherError (msg : String)
  | jsError (msg : String)
deriving DecidableEq, Repr

/-- The value built by `dict(zip(YT_ENCODING_KEYS, attr))` in
`YouTube._extract_fmt`: the seven per-format attributes keyed by
`YT_ENCODING_KEYS`. -/
structure FormatDescriptor where
  extension : String
  resolution : String
  video_codec : String
  profile : String
  video_bitrate : String
  audio_codec : String
  audio_bitrate : String
deriving DecidableEq, Repr

/-- The `YT_ENCODING` table of `api.py`, row for row; each row is the
seven-element attribute list zipped with `YT_ENCODING_KEYS` into a
`FormatDescriptor`.  `none` models a dictionary miss
(`YT_ENCODING.get(itag, None)`). -/
def YT_ENCODING (itag : Nat) : Option FormatDescriptor :=
  match itag with
  | 5 => some ⟨"flv", "240p", "Sorenson H.263", "N/A", "0.25", "MP3", "64"⟩
  | 6 => some ⟨"flv", "270p", "Sorenson H.263", "N/A", "0.8", "MP3", "64"⟩
  | 34 => some ⟨"flv", "360p", "H.264", "Main", "0.5", "AAC", "128"⟩
  | 35 => some ⟨"flv", "480p", "H.264", "Main", "0.8-1", "AAC", "128"⟩
  | 36 => some ⟨"3gp", "240p", "MPEG-4 Visual", "Simple", "0.17", "AAC", "38"⟩
  | 13 => some ⟨"3gp", "N/A", "MPEG-4 Visual", "N/A", "0.5", "AAC", "N/A"⟩
  | 17 => some ⟨"3gp", "144p", "MPEG-4 Visual", "Simple", "0.05", "AAC", "24"⟩
  | 18 => some ⟨"mp4", "360p", "H.264", "Baseline", "0.5", "AAC", "96"⟩
  | 22 => some ⟨"mp4", "720p", "H.264", "High", "2-2.9", "AAC", "192"⟩
  | 37 => some ⟨"mp4", "1080p", "H.264", "High", "3-4.3", "AAC", "192"⟩
  | 38 => some ⟨"mp4", "3072p", "H.264", "High", "3.5-5", "AAC", "192"⟩
  | 82 => some ⟨"mp4", "360p", "H.264", "3D", "0.5", "AAC", "96"⟩
  | 83 => some ⟨"mp4", "240p", "H.264", "3D", "0.5", "AAC", "96"⟩
  | 84 => some ⟨"mp4", "720p", "H.264", "3D", "2-2.9", "AAC", "152"⟩
  | 85 => some ⟨"mp4", "1080p", "H.264", "3D", "2-2.9", "AAC", "152"⟩
  | 43 => some ⟨"webm", "360p", "VP8", "N/A", "0.5", "Vorbis", "128"⟩
  | 44 => some ⟨"webm", "480p", "VP8", "N/A", "1", "Vorbis", "128"⟩
  | 45 => some ⟨"webm", "720p", "VP8", "N/A", "2", "Vorbis", "192"⟩
  | 46 => some ⟨"webm", "1080p", "VP8", "N/A", "N/A", "Vorbis", "192"⟩
  | 100 => some ⟨"webm", "360p", "VP8", "3D", "N/A", "Vorbis", "128"⟩
  | 101 => some ⟨"webm", "360p", "VP8", "3D", "N/A", "Vorbis", "192"⟩
  | 102 => some ⟨"webm", "720p", "VP8", "3D", "N/A", "Vorbis", "192"⟩
  | _ => none

/-- A `models.Video` object as far as `api.py` uses it: the constructor
arguments of `Video(url, self.filename, **fmt_data)` — the url, the filename
and the seven descriptor attributes passed as keyword arguments. -/
structure Video where
  url : String
  filename : String
  extension : String
  resolution : String
  video_codec : String
  profile : String
  video_bitrate : String
  audio_codec : String
  audio_bitrate : String
deriving DecidableEq, Repr

/-- Builds the `Video` from the url, filename and the unpacked descriptor. -/
def mkVideo (url filename : String) (fd : FormatDescriptor) : Video :=
  ⟨url, filename, fd.extension, fd.resolution, fd.video_codec, fd.profile,
   fd.video_bitrate, fd.audio_codec, fd.audio_bitrate⟩

/-! ### `YouTube.get` and `YouTube.filter`

Both methods run the identical filtering loop (lines 137-146 and 166-175 of
`api.py` are the same `if extension and v.extension != extension: continue ...`
chain); the loop is embedded once and used by both.  A criterion is a Python
value that may be `None` (`Option.none`) or a string; Python truthiness of a
string criterion is "not `None` and not the empty string". -/

/-- Python truthiness of an optional-string argument: `None` and `""` are
falsy, every other string truthy. -/
def truthy : Option String → Bool
  | none => false
  | some s => !(s == "")

/-- One iteration's decision of the shared loop body of `YouTube.get` /
`YouTube.filter`: `True` exactly when the video is appended to the result
(none of the three `continue` branches fires). -/
def keepVideo (extension resolution profile : Option String) (v : Video) : Bool :=
  if truthy extension && !(v.extension == extension.getD "") then false
  else if truthy resolution && !(v.resolution == resolution.getD "") then false
  else if truthy profile && !(v.profile == profile.getD "") then false
  else true

/-- The `for v in self.videos` accumulation loop shared by `YouTube.get` and
`YouTube.filter`. -/
def selectLoop (extension resolution profile : Option String) :
    List Video → List Video → List Video
  | [], result => result
  | v :: rest, result =>
    if truthy extension && !(v.extension == extension.getD "") then
      selectLoop extension resolution profile rest result
    else if truthy resolution && !(v.resolution == resolution.getD "") then
      selectLoop extension resolution profile rest result
    else if truthy profile && !(v.profile == profile.getD "") then
      selectLoop extension resolution profile rest result
    else
      selectLoop extension resolution profile rest (result ++ [v])

/-- `YouTube.filter`: the accumulated list is returned as is. -/
def YouTube.filter (videos : List Video)
    (extension resolution profile : Option String) : List Video :=
  selectLoop extension resolution profile videos []

/-- `YouTube.get`: returns `None` on zero matches, the single video on one,
and raises `MultipleObjectsReturned` on more. -/
def YouTube.get (videos : List Video)
    (extension resolution profile : Option String) :
    Except PyErr (Option Video) :=
  match selectLoop extension resolution profile videos [] with
  | [] => .ok none
  | [v] => .ok (some v)
  | _ => .error .multipleObjectsReturned

theorem selectLoop_eq_filter (e r p : Option String) :
    ∀ (videos acc : List Video),
      selectLoop e r p videos acc = acc ++ videos.filter (keepVideo e r p) := by
  intro videos
  induction videos with
  | nil => intro acc; simp [selectLoop]
  | cons v rest ih =>
    intro acc
    by_cases h1 : (truthy e && !(v.extension == e.getD "")) = true
    · simp [selectLoop, h1, keepVideo, List.filter, ih]
    · by_cases h2 : (truthy r && !(v.resolution == r.getD "")) = true
      · simp [selectLoop, h1, h2, keepVideo, List.filter, ih]
      · by_cases h3 : (truthy p && !(v.profile == p.getD "")) = true
        · simp [selectLoop, h1, h2, h3, keepVideo, List.filter, ih]
        · simp [selectLoop, h1, h2, h3, keepVideo, List.filter, ih]

theorem filter_eq_filter (e r p : Option String) (videos : List Video) :
    YouTube.filter videos e r p = videos.filter (keepVideo e r p) := by
  simp [YouTube.filter, selectLoop_eq_filter]

theorem get_eq_match (e r p : Option String) (videos : List Video) :
    YouTube.get videos e r p =
      match videos.filter (keepVideo e r p) with
      | [] => .ok none
      | [v] => .ok (some v)
      | _ => .error .multipleObjectsReturned := by
  simp only [YouTube.get, selectLoop_eq_filter, List.nil_append]

/-- C6: `get` returns absent (Python `None`) when zero streams satisfy all
given filters — in particular with no filters on an empty list — returns the
unique stream when exactly one satisfies them, and raises
`MultipleObjectsReturned` (the spec's `MultipleMatches`) when two or more
satisfy them. -/
theorem C6_get_zero_one_many (videos : List Video) (e r p : Option String) :
    (videos.countP (keepVideo e r p) = 0 → YouTube.get videos e r p = .ok none) ∧
    (∀ x, videos.filter (keepVideo e r p) = [x] →
      YouTube.get videos e r p = .ok (some x)) ∧
    (2 ≤ videos.countP (keepVideo e r p) →
      YouTube.get videos e r p = .error .multipleObjectsReturned) ∧
    YouTube.get ([] : List Video) none none none = .ok none := by
  rw [List.countP_eq_length_filter]
  refine ⟨?_, ?_, ?_, rfl⟩
  · intro h0
    rw [get_eq_match, List.length_eq_zero.mp h0]
  · intro x h1
    rw [get_eq_match, h1]
  · intro h2
    rw [get_eq_match]
    match hm : videos.filter (keepVideo e r p) with
    | [] => rw [hm] at h2; simp at h2
    | [v] => rw [hm] at h2; simp at h2
    | a :: b :: rest => rfl

theorem C6_get_zero_one_many_witness :
    YouTube.get ([] : List Video) none none none = .ok none ∧
    YouTube.get [⟨"u1", "f", "mp4", "720p", "H.264", "High", "2-2.9", "AAC", "192"⟩,
                 ⟨"u2", "f", "flv", "240p", "Sorenson H.263", "N/A", "0.25", "MP3", "64"⟩]
        (some "mp4") none none =
      .ok (some ⟨"u1", "f", "mp4", "720p", "H.264", "High", "2-2.9", "AAC", "192"⟩) ∧
    YouTube.get [⟨"u1", "f", "mp4", "720p", "H.264", "High", "2-2.9", "AAC", "192"⟩,
                 ⟨"u1", "f", "mp4", "720p", "H.264", "High", "2-2.9", "AAC", "192"⟩]
        none none none = .error .multipleObjectsReturned := by
  refine ⟨(C6_get_zero_one_many [] none none none).2.2.2, ?_, ?_⟩
  · exact (C6_get_zero_one_many _ (some "mp4") none none).2.1 _ (by decide)
  · exact (C6_get_zero_one_many _ none none none).2.2.1 (by decide)

/-- C9: `get` and `filter` agree on every stream list and every combination
of the three criteria: `get` returns absent exactly when `filter` returns
`[]`, returns the stream `x` exactly when `filter` returns `[x]`, and raises
`MultipleObjectsReturned` exactly when `filter` returns two or more
streams. -/
theorem C9_get_filter_agree (videos : List Video) (e r p : Option String) :
    (YouTube.get videos e r p = .ok none ↔ YouTube.filter videos e r p = []) ∧
    (∀ x, YouTube.get videos e r p = .ok (some x) ↔
      YouTube.filter videos e r p = [x]) ∧
    (YouTube.get videos e r p = .error .multipleObjectsReturned ↔
      2 ≤ (YouTube.filter videos e r p).length) := by
  rw [filter_eq_filter, get_eq_match]
  match hm : videos.filter (keepVideo e r p) with
  | [] => refine ⟨by simp, fun x => by simp, by simp⟩
  | [v] => refine ⟨by simp, fun x => by simp, by simp⟩
  | a :: b :: rest =>
    refine ⟨by simp, fun x => by simp, by simp⟩

theorem C9_get_filter_agree_witness :
    (YouTube.get [⟨"u1", "f", "mp4", "720p", "H.264", "High", "2-2.9", "AAC", "192"⟩]
        none none none =
        .ok (some ⟨"u1", "f", "mp4", "720p", "H.264", "High", "2-2.9", "AAC", "192"⟩) ↔
      YouTube.filter [⟨"u1", "f", "mp4", "720p", "H.264", "High", "2-2.9", "AAC", "192"⟩]
        none none none =
        [⟨"u1", "f", "mp4", "720p", "H.264", "High", "2-2.9", "AAC", "192"⟩]) := by
  exact (C9_get_filter_agree _ none none none).2.1 _

theorem keepVideo_empty_ext (r p : Option String) :
    keepVideo (some "") r p = keepVideo none r p := rfl

theorem keepVideo_empty_res (e p : Option String) :
    keepVideo e (some "") p = keepVideo e none p := by
  funext v
  simp only [keepVideo, truthy]
  rfl

theorem keepVideo_empty_prof (e r : Option String) :
    keepVideo e r (some "") = keepVideo e r none := by
  funext v
  simp only [keepVideo, truthy]
  rfl

/-- C10: a criterion given as the empty string (a falsy Python value, like
the omitted `None`) does not constrain `get` or `filter` at all: each of the
three criteria given as `""` selects exactly the same streams as omitting
it, rather than matching streams whose field equals `""`. -/
theorem C10_falsy_criteria_unconstrained (videos : List Video)
    (e r p : Option String) :
    YouTube.filter videos (some "") r p = YouTube.filter videos none r p ∧
    YouTube.filter videos e (some "") p = YouTube.filter videos e none p ∧
    YouTube.filter videos e r (some "") = YouTube.filter videos e r none ∧
    YouTube.get videos (some "") r p = YouTube.get videos none r p ∧
    YouTube.get videos e (some "") p = YouTube.get videos e none p ∧
    YouTube.get videos e r (some "") = YouTube.get videos e r none := by
  refine ⟨?_, ?_, ?_, ?_, ?_, ?_⟩ <;>
    simp only [filter_eq_filter, get_eq_match, keepVideo_empty_ext,
      keepVideo_empty_res, keepVideo_empty_prof]

/-! ### `YouTube._parse_stream_map`

The decoder splits the text on `","` into records, each record on `"&"` into
pairs, and each pair with Python's `kv.split("=")` — which splits on EVERY
`"="`; the destructuring `key, value = kv.split("=")` raises `ValueError`
unless the split has exactly two parts.  Known keys append the unquoted
value to the corresponding list of the `videoinfo` dictionary; an unknown
key appends to the fresh list returned by `videoinfo.get(key, [])`, which is
discarded.  `urllib`'s `unquote` is external to the module and is taken as a
parameter. -/

/-- The `videoinfo` dictionary of `_parse_stream_map`: its six fixed keys,
each holding an ordered list of decoded values. -/
structure StreamInfo where
  itag : List String
  url : List String
  quality : List String
  fallback_host : List String
  s : List String
  type : List String
deriving DecidableEq, Repr

/-- The initial `videoinfo` value: every key maps to an empty list. -/
def videoinfoInit : StreamInfo := ⟨[], [], [], [], [], []⟩

/-- Python `str.split` with a one-character separator (the module only
splits on `","`, `"&"` and `"="`): every occurrence of the separator ends a
field, the empty string yields one empty field. -/
def splitOnChar (sep : Char) : List Char → List (List Char)
  | [] => [[]]
  | c :: rest =>
    if c = sep then [] :: splitOnChar sep rest
    else
      match splitOnChar sep rest with
      | cur :: others => (c :: cur) :: others
      | [] => [[c]]

/-- `str.split` on `String`s. -/
def pySplit (s : String) (sep : Char) : List String :=
  (splitOnChar sep s.data).map (fun cs => String.mk cs)

/-- `videoinfo.get(key, []).append(unquote(value))`: a known key appends to
its list, an unknown key appends to a discarded fresh list (no change). -/
def appendKey (info : StreamInfo) (key value : String) : StreamInfo :=
  if key = "itag" then { info with itag := info.itag ++ [value] }
  else if key = "url" then { info with url := info.url ++ [value] }
  else if key = "quality" then { info with quality := info.quality ++ [value] }
  else if key = "fallback_host" then
    { info with fallback_host := info.fallback_host ++ [value] }
  else if key = "s" then { info with s := info.s ++ [value] }
  else if key = "type" then { info with type := info.type ++ [value] }
  else info

/-- The inner `for kv in video` loop: each pair is split on every `"="` and
destructured into `key, value`, which raises `ValueError` unless the split
has exactly two parts. -/
def foldPairs (unquote : String → String) (info : StreamInfo) :
    List String → Except PyErr StreamInfo
  | [] => .ok info
  | kv :: rest =>
    match pySplit kv '=' with
    | [key, value] => foldPairs unquote (appendKey info key (unquote value)) rest
    | _ => .error .valueError

/-- The outer `for video in videos` loop. -/
def foldVideos (unquote : String → String) (info : StreamInfo) :
    List (List String) → Except PyErr StreamInfo
  | [] => .ok info
  | video :: rest =>
    match foldPairs unquote info video with
    | .ok info2 => foldVideos unquote info2 rest
    | .error e => .error e

/-- `YouTube._parse_stream_map`. -/
def parse_stream_map (unquote : String → String) (text : String) :
    Except PyErr StreamInfo :=
  let videos := pySplit text ','
  let videos2 := videos.map (fun video => pySplit video '&')
  foldVideos unquote videoinfoInit videos2

/-- All `key=value` pairs of the stream-map text, in decode order. -/
def pairsOf (text : String) : List String :=
  ((pySplit text ',').map (fun video => pySplit video '&')).flatten

/-- The key of a well-formed pair (exactly one `"="`), else `none`. -/
def pairKey (kv : String) : Option String :=
  match pySplit kv '=' with
  | [key, _] => some key
  | _ => none

/-- How many pairs of the stream-map text carry the given key. -/
def countKey (k : String) (text : String) : Nat :=
  (pairsOf text).countP (fun kv => pairKey kv = some k)

theorem foldPairs_cons (unquote : String → String) (info : StreamInfo)
    (kv : String) (rest : List String) :
    foldPairs unquote info (kv :: rest) =
      match pySplit kv '=' with
      | [key, value] => foldPairs unquote (appendKey info key (unquote value)) rest
      | _ => .error .valueError := rfl

theorem foldVideos_cons (unquote : String → String) (info : StreamInfo)
    (video : List String) (rest : List (List String)) :
    foldVideos unquote info (video :: rest) =
      match foldPairs unquote info video with
      | .ok info2 => foldVideos unquote info2 rest
      | .error e => .error e := rfl

theorem foldPairs_append (unquote : String → String) :
    ∀ (a b : List String) (info : StreamInfo),
      foldPairs unquote info (a ++ b) =
        match foldPairs unquote info a with
        | .ok info2 => foldPairs unquote info2 b
        | .error e => .error e := by
  intro a
  induction a with
  | nil => intro b info; rfl
  | cons kv rest ih =>
    intro b info
    rw [List.cons_append, foldPairs_cons, foldPairs_cons]
    match h : pySplit kv '=' with
    | [key, value] => exact ih b _
    | [] => rfl
    | [x] => rfl
    | x :: y :: z :: w => rfl

theorem foldVideos_eq_flatten (unquote : String → String) :
    ∀ (vs : List (List String)) (info : StreamInfo),
      foldVideos unquote info vs = foldPairs unquote info vs.flatten := by
  intro vs
  induction vs with
  | nil => intro info; rfl
  | cons video rest ih =>
    intro info
    rw [List.flatten_cons, foldPairs_append, foldVideos_cons]
    match h : foldPairs unquote info video with
    | .ok info2 => exact ih info2
    | .error e => rfl

theorem parse_eq_foldPairs (unquote : String → String) (text : String) :
    parse_stream_map unquote text =
      foldPairs unquote videoinfoInit (pairsOf text) := by
  rw [parse_stream_map, pairsOf, foldVideos_eq_flatten]

theorem foldPairs_ok_iff (unquote : String → String) :
    ∀ (kvs : List String) (info : StreamInfo),
      (∃ out, foldPairs unquote info kvs = .ok out) ↔
        ∀ kv ∈ kvs, (pySplit kv '=').length = 2 := by
  intro kvs
  induction kvs with
  | nil => intro info; simp [foldPairs]
  | cons kv rest ih =>
    intro info
    rw [foldPairs_cons]
    match h : pySplit kv '=' with
    | [key, value] =>
      simp only [List.mem_cons]
      constructor
      · intro hok x hx
        rcases hx with hx | hx
        · subst hx; rw [h]; rfl
        · exact ((ih _).mp hok) x hx
      · intro hall
        exact (ih _).mpr (fun x hx => hall x (Or.inr hx))
    | [] =>
      simp only [List.mem_cons]
      constructor
      · rintro ⟨out, hout⟩; cases hout
      · intro hall; have := hall kv (Or.inl rfl); rw [h] at this; cases this
    | [x] =>
      simp only [List.mem_cons]
      constructor
      · rintro ⟨out, hout⟩; cases hout
      · intro hall; have := hall kv (Or.inl rfl); rw [h] at this; cases this
    | x :: y :: z :: w =>
      simp only [List.mem_cons]
      constructor
      · rintro ⟨out, hout⟩; cases hout
      · intro hall
        have := hall kv (Or.inl rfl)
        rw [h] at this
        simp at this

/-- C2 counterexample: the pair `s=a=b` (a value containing a further `=`)
is NOT decoded with everything after the first `=` as the value — the
decoder raises `ValueError` because `kv.split("=")` splits on every `=` and
the two-variable destructuring fails. -/
theorem C2_counterexample :
    parse_stream_map id "s=a=b" = .error .valueError := by rfl

/-- C2 amended: the decoder splits each pair on EVERY `=`, so a record
decodes exactly when each of its pairs contains exactly one `=` (two split
parts); a pair whose value contains further `=` characters makes the whole
decode fail with `ValueError` instead of being decoded at the first `=`. -/
theorem C2_amended_split_on_every_eq (unquote : String → String) (text : String) :
    (∃ out, parse_stream_map unquote text = .ok out) ↔
      ∀ kv ∈ pairsOf text, (pySplit kv '=').length = 2 := by
  rw [parse_eq_foldPairs]
  exact foldPairs_ok_iff unquote (pairsOf text) videoinfoInit

theorem C2_amended_split_on_every_eq_witness :
    (∃ out, parse_stream_map id "itag=22&url=u,itag=18&url=v" = .ok out) ↔
      ∀ kv ∈ pairsOf "itag=22&url=u,itag=18&url=v",
        (pySplit kv '=').length = 2 :=
  C2_amended_split_on_every_eq id "itag=22&url=u,itag=18&url=v"

theorem foldPairs_len (unquote : String → String)
    (proj : StreamInfo → List String) (k : String)
    (hproj : ∀ info key value, proj (appendKey info key value) =
      proj info ++ (if key = k then [value] else [])) :
    ∀ (kvs : List String) (info0 out : StreamInfo),
      foldPairs unquote info0 kvs = .ok out →
      (proj out).length =
        (proj info0).length + kvs.countP (fun kv => pairKey kv = some k) := by
  intro kvs
  induction kvs with
  | nil =>
    intro info0 out h
    cases h
    simp
  | cons kv rest ih =>
    intro info0 out h
    rw [foldPairs_cons] at h
    rw [List.countP_cons]
    match hkv : pySplit kv '=' with
    | [key, value] =>
      rw [hkv] at h
      have hrec := ih _ _ h
      rw [hrec, hproj, List.length_append]
      by_cases hk : key = k
      · subst hk
        simp [pairKey, hkv]
        omega
      · simp [pairKey, hkv, hk]
    | [] => rw [hkv] at h; cases h
    | [x] => rw [hkv] at h; cases h
    | x :: y :: z :: w => rw [hkv] at h; cases h

theorem appendKey_itag (info : StreamInfo) (key value : String) :
    (appendKey info key value).itag =
      info.itag ++ (if key = "itag" then [value] else []) := by
  unfold appendKey
  split_ifs with h1 h2 h3 h4 h5 h6 <;> simp_all

theorem appendKey_url (info : StreamInfo) (key value : String) :
    (appendKey info key value).url =
      info.url ++ (if key = "url" then [value] else []) := by
  unfold appendKey
  split_ifs with h1 h2 h3 h4 h5 h6 <;> simp_all

theorem appendKey_quality (info : StreamInfo) (key value : String) :
    (appendKey info key value).quality =
      info.quality ++ (if key = "quality" then [value] else []) := by
  unfold appendKey
  split_ifs with h1 h2 h3 h4 h5 h6 <;> simp_all

theorem appendKey_fallback (info : StreamInfo) (key value : String) :
    (appendKey info key value).fallback_host =
      info.fallback_host ++ (if key = "fallback_host" then [value] else []) := by
  unfold appendKey
  split_ifs with h1 h2 h3 h4 h5 h6 <;> simp_all

theorem appendKey_s (info : StreamInfo) (key value : String) :
    (appendKey info key value).s =
      info.s ++ (if key = "s" then [value] else []) := by
  unfold appendKey
  split_ifs with h1 h2 h3 h4 h5 h6 <;> simp_all

theorem appendKey_type (info : StreamInfo) (key value : String) :
    (appendKey info key value).type =
      info.type ++ (if key = "type" then [value] else []) := by
  unfold appendKey
  split_ifs with h1 h2 h3 h4 h5 h6 <;> simp_all

/-- C8 counterexample: the decoded stream map does NOT satisfy "all per-key
value sequences have equal length (= the number of stream records)", and no
validation rejects it: `"itag=1"` (one record) decodes successfully with the
itag sequence of length 1 and the url sequence of length 0. -/
theorem C8_counterexample :
    parse_stream_map id "itag=1" = .ok ⟨["1"], [], [], [], [], []⟩ ∧
    (StreamInfo.mk ["1"] [] [] [] [] []).itag.length = 1 ∧
    (StreamInfo.mk ["1"] [] [] [] [] []).url.length = 0 ∧
    (pySplit "itag=1" ',').length = 1 :=
  ⟨rfl, rfl, rfl, rfl⟩

/-- C8 amended: in every successfully decoded stream map, each key's value
sequence has length equal to the number of `key=value` pairs carrying that
key across all records (insertion order alignment); keys missing from some
records yield shorter sequences, and no equal-length validation is performed
at decode completion. -/
theorem C8_amended_per_key_lengths (unquote : String → String) (text : String)
    (out : StreamInfo) (h : parse_stream_map unquote text = .ok out) :
    out.itag.length = countKey "itag" text ∧
    out.url.length = countKey "url" text ∧
    out.quality.length = countKey "quality" text ∧
    out.fallback_host.length = countKey "fallback_host" text ∧
    out.s.length = countKey "s" text ∧
    out.type.length = countKey "type" text := by
  rw [parse_eq_foldPairs] at h
  refine ⟨?_, ?_, ?_, ?_, ?_, ?_⟩
  · simpa [countKey, videoinfoInit] using
      foldPairs_len unquote StreamInfo.itag "itag" appendKey_itag _ _ _ h
  · simpa [countKey, videoinfoInit] using
      foldPairs_len unquote StreamInfo.url "url" appendKey_url _ _ _ h
  · simpa [countKey, videoinfoInit] using
      foldPairs_len unquote StreamInfo.quality "quality" appendKey_quality _ _ _ h
  · simpa [countKey, videoinfoInit] using
      foldPairs_len unquote StreamInfo.fallback_host "fallback_host"
        appendKey_fallback _ _ _ h
  · simpa [countKey, videoinfoInit] using
      foldPairs_len unquote StreamInfo.s "s" appendKey_s _ _ _ h
  · simpa [countKey, videoinfoInit] using
      foldPairs_len unquote StreamInfo.type "type" appendKey_type _ _ _ h

theorem C8_amended_per_key_lengths_witness :
    (StreamInfo.mk ["1", "2"] ["u"] [] [] [] []).itag.length =
      countKey "itag" "itag=1&url=u,itag=2" ∧
    (StreamInfo.mk ["1", "2"] ["u"] [] [] [] []).url.length =
      countKey "url" "itag=1&url=u,itag=2" ∧
    (StreamInfo.mk ["1", "2"] ["u"] [] [] [] []).quality.length =
      countKey "quality" "itag=1&url=u,itag=2" ∧
    (StreamInfo.mk ["1", "2"] ["u"] [] [] [] []).fallback_host.length =
      countKey "fallback_host" "itag=1&url=u,itag=2" ∧
    (StreamInfo.mk ["1", "2"] ["u"] [] [] [] []).s.length =
      countKey "s" "itag=1&url=u,itag=2" ∧
    (StreamInfo.mk ["1", "2"] ["u"] [] [] [] []).type.length =
      countKey "type" "itag=1&url=u,itag=2" :=
  C8_amended_per_key_lengths id "itag=1&url=u,itag=2"
    ⟨["1", "2"], ["u"], [], [], [], []⟩ rfl

/-! ### `YouTube._find_json_offset` and `YouTube._get_json_data`

`_find_json_offset` scans the text keeping a running `bracket_count`
(incremented at `{`, decremented at `}`), breaks at the `}` that brings the
count to zero and returns `index + i` with the constant `index = 1`; if the
loop exhausts the text the `for ... else` returns `None`.  `_get_json_data`
computes `start = body.find("ytplayer.config = ") + 18` — Python's `find`
returns `-1` on a miss, so an absent marker silently yields `start = 17` —
slices, and hands `body[:offset]` to the external `json.loads`, returning
`None` when `not offset`. -/

/-- The contribution of one character to the running bracket count. -/
def braceDelta (c : Char) : Int :=
  if c = '{' then 1 else if c = '}' then -1 else 0

/-- The net bracket count of a text. -/
def netCount : List Char → Int
  | [] => 0
  | c :: rest => braceDelta c + netCount rest

/-- The scanning loop of `YouTube._find_json_offset`. -/
def scanOffset (cs : List Char) (bracket_count : Int) (i : Nat) : Option Nat :=
  match cs with
  | [] => none
  | c :: rest =>
    if c = '{' then scanOffset rest (bracket_count + 1) (i + 1)
    else if c = '}' then
      if bracket_count - 1 = 0 then some (1 + i)
      else scanOffset rest (bracket_count - 1) (i + 1)
    else scanOffset rest bracket_count (i + 1)

/-- `YouTube._find_json_offset`. -/
def find_json_offset (body : List Char) : Option Nat := scanOffset body 0 0

/-- The boundary extraction `body[:offset]` performed by `_get_json_data`
after the marker slice: the substring handed to the JSON parser, or `None`
when no offset was found. -/
def jsonExtract (body : List Char) : Option (List Char) :=
  match find_json_offset body with
  | none => none
  | some off => some (body.take off)

/-- Auxiliary scan of Python `str.find`: the first index at or after `i`
where the pattern occurs as a prefix of the remaining text. -/
def findSubAux (pattern : List Char) : List Char → Nat → Option Nat
  | [], i => if pattern = [] then some i else none
  | c :: rest, i =>
    if pattern.isPrefixOf (c :: rest) then some i
    else findSubAux pattern rest (i + 1)

/-- Python `str.find`: the lowest index where the substring occurs, `-1` on
a miss. -/
def pyFind (body sub : List Char) : Int :=
  match findSubAux sub body 0 with
  | some n => (n : Int)
  | none => -1

/-- The literal marker `ytplayer.config = ` (18 characters, the `18` of the
source). -/
def ytMarker : List Char := ("ytplayer.config = ").data

/-- `YouTube._get_json_data` up to (and excluding) the external
`json.loads` call: the substring it would hand to the JSON parser, `none`
where the method returns `None`. -/
def get_json_string (body : List Char) : Option (List Char) :=
  let start := (pyFind body ytMarker + 18).toNat
  let body2 := body.drop start
  match find_json_offset body2 with
  | none => none
  | some off => if off = 0 then none else some (body2.take off)

/-- The spec's failure condition "brace depth never returns to zero": no
closing brace anywhere in the text brings the net bracket count to zero. -/
def neverCloses (cs : List Char) : Prop :=
  ∀ j, j < cs.length → ¬(cs.getD j ' ' = '}' ∧ netCount (cs.take (j + 1)) = 0)

/-- A balanced-brace JSON fragment: nonempty, opens with `{`, net depth
zero over the whole fragment and strictly positive on every proper nonempty
prefix — the depth first returns to zero at the fragment's last
character. -/
def isBalancedFragment (cs : List Char) : Prop :=
  cs ≠ [] ∧ cs.head? = some '{' ∧ netCount cs = 0 ∧
    ∀ j, j < cs.length → 0 < j → 0 < netCount (cs.take j)

theorem scanOffset_cons (c : Char) (rest : List Char) (count : Int) (i : Nat) :
    scanOffset (c :: rest) count i =
      if c = '{' then scanOffset rest (count + 1) (i + 1)
      else if c = '}' then
        if count - 1 = 0 then some (1 + i) else scanOffset rest (count - 1) (i + 1)
      else scanOffset rest count (i + 1) := rfl

theorem netCount_cons (c : Char) (l : List Char) :
    netCount (c :: l) = braceDelta c + netCount l := rfl

theorem braceDelta_bounds (c : Char) : -1 ≤ braceDelta c ∧ braceDelta c ≤ 1 := by
  unfold braceDelta
  split_ifs <;> omega

theorem braceDelta_eq_neg_one (c : Char) (h : braceDelta c = -1) : c = '}' := by
  by_cases h1 : c = '{'
  · exfalso
    unfold braceDelta at h
    rw [if_pos h1] at h
    exact absurd h (by decide)
  · by_cases h2 : c = '}'
    · exact h2
    · exfalso
      unfold braceDelta at h
      rw [if_neg h1, if_neg h2] at h
      exact absurd h (by decide)

theorem netCount_take_succ :
    ∀ (s : List Char) (m : Nat), m < s.length →
      netCount (s.take (m + 1)) = netCount (s.take m) + braceDelta (s.getD m ' ') := by
  intro s
  induction s with
  | nil => intro m hm; simp at hm
  | cons c rest ih =>
    intro m hm
    match m with
    | 0 => simp [netCount, braceDelta]
    | j + 1 =>
      have hj : j < rest.length := by simpa using hm
      have := ih j hj
      show netCount (c :: rest.take (j + 1)) = netCount (c :: rest.take j) + _
      rw [netCount_cons, netCount_cons, this, List.getD_cons_succ]
      omega

/-- The hypothesis of the scan lemmas, transported one character inward. -/
theorem scanHyp_shift (c : Char) (rest : List Char) (count : Int)
    (h : ∀ j, j < (c :: rest).length →
      ¬((c :: rest).getD j ' ' = '}' ∧ count + netCount ((c :: rest).take (j + 1)) = 0)) :
    ∀ j, j < rest.length →
      ¬(rest.getD j ' ' = '}' ∧
        (count + braceDelta c) + netCount (rest.take (j + 1)) = 0) := by
  intro j hj hcontra
  refine h (j + 1) (by simp; omega) ⟨by simpa using hcontra.1, ?_⟩
  have ht : (c :: rest).take (j + 1 + 1) = c :: rest.take (j + 1) := rfl
  rw [ht, netCount_cons]
  have := hcontra.2
  omega

theorem scanOffset_none :
    ∀ (cs : List Char) (count : Int) (i : Nat),
      (∀ j, j < cs.length →
        ¬(cs.getD j ' ' = '}' ∧ count + netCount (cs.take (j + 1)) = 0)) →
      scanOffset cs count i = none := by
  intro cs
  induction cs with
  | nil => intro count i _; rfl
  | cons c rest ih =>
    intro count i h
    have h0 := h 0 (by simp)
    rw [scanOffset_cons]
    by_cases hc1 : c = '{'
    · rw [if_pos hc1]
      have hd : braceDelta c = 1 := by simp [braceDelta, hc1]
      have := ih (count + braceDelta c) (i + 1) (scanHyp_shift c rest count h)
      rwa [hd] at this
    · rw [if_neg hc1]
      by_cases hc2 : c = '}'
      · rw [if_pos hc2]
        have hne : ¬(count - 1 = 0) := by
          intro hz
          refine h0 ⟨by simpa using hc2, ?_⟩
          have ht : (c :: rest).take 1 = [c] := rfl
          rw [ht, netCount_cons]
          have hd : braceDelta c = -1 := by simp [braceDelta, hc1, hc2]
          show count + (braceDelta c + netCount []) = 0
          rw [hd]
          show count + (-1 + netCount []) = 0
          simp only [netCount]
          omega
        rw [if_neg hne]
        have hd : braceDelta c = -1 := by simp [braceDelta, hc1, hc2]
        have := ih (count + braceDelta c) (i + 1) (scanHyp_shift c rest count h)
        rw [hd] at this
        have harith : count + (-1 : Int) = count - 1 := by omega
        rwa [harith] at this
      · rw [if_neg hc2]
        have hd : braceDelta c = 0 := by simp [braceDelta, hc1, hc2]
        have := ih (count + braceDelta c) (i + 1) (scanHyp_shift c rest count h)
        rw [hd] at this
        have harith : count + (0 : Int) = count := by omega
        rwa [harith] at this

theorem scanOffset_some :
    ∀ (cs : List Char) (count : Int) (i : Nat) (k : Nat),
      k < cs.length → cs.getD k ' ' = '}' →
      count + netCount (cs.take (k + 1)) = 0 →
      (∀ j, j < k →
        ¬(cs.getD j ' ' = '}' ∧ count + netCount (cs.take (j + 1)) = 0)) →
      scanOffset cs count i = some (1 + i + k) := by
  intro cs
  induction cs with
  | nil => intro count i k hk; simp at hk
  | cons c rest ih =>
    intro count i k hk hget hnet hmin
    rw [scanOffset_cons]
    match k with
    | 0 =>
      have hc : c = '}' := by simpa using hget
      have hcne : ¬(c = '{') := by rw [hc]; decide
      rw [if_neg hcne, if_pos hc]
      have ht : (c :: rest).take 1 = [c] := rfl
      rw [ht, netCount_cons] at hnet
      have hd : braceDelta c = -1 := by simp [braceDelta, hc]
      rw [hd] at hnet
      simp [netCount] at hnet
      have hz : count - 1 = 0 := by omega
      rw [if_pos hz]
      simp
    | j + 1 =>
      have hj : j < rest.length := by simpa using hk
      have hget2 : rest.getD j ' ' = '}' := by simpa using hget
      have h0 := hmin 0 (by omega)
      have hmin2 : ∀ m, m < j →
          ¬(rest.getD m ' ' = '}' ∧
            (count + braceDelta c) + netCount (rest.take (m + 1)) = 0) := by
        intro m hm hcontra
        refine hmin (m + 1) (by omega) ⟨by simpa using hcontra.1, ?_⟩
        have ht : (c :: rest).take (m + 1 + 1) = c :: rest.take (m + 1) := rfl
        rw [ht, netCount_cons]
        have := hcontra.2
        omega
      have hnet2 : (count + braceDelta c) + netCount (rest.take (j + 1)) = 0 := by
        have ht : (c :: rest).take (j + 1 + 1) = c :: rest.take (j + 1) := rfl
        rw [ht, netCount_cons] at hnet
        omega
      have harith : 1 + (i + 1) + j = 1 + i + (j + 1) := by omega
      by_cases hc1 : c = '{'
      · rw [if_pos hc1]
        have hd : braceDelta c = 1 := by simp [braceDelta, hc1]
        rw [hd] at hnet2 hmin2
        have := ih (count + 1) (i + 1) j hj hget2 hnet2 hmin2
        rwa [harith] at this
      · rw [if_neg hc1]
        by_cases hc2 : c = '}'
        · rw [if_pos hc2]
          have hd : braceDelta c = -1 := by simp [braceDelta, hc1, hc2]
          rw [hd] at hnet2 hmin2
          have hne : ¬(count - 1 = 0) := by
            intro hz
            refine h0 ⟨by simpa using hc2, ?_⟩
            have ht : (c :: rest).take 1 = [c] := rfl
            rw [ht, netCount_cons, hd]
            show count + (-1 + netCount []) = 0
            simp only [netCount]
            omega
          rw [if_neg hne]
          have harith2 : count + (-1 : Int) = count - 1 := by omega
          rw [harith2] at hnet2 hmin2
          have := ih (count - 1) (i + 1) j hj hget2 hnet2 hmin2
          rwa [harith] at this
        · rw [if_neg hc2]
          have hd : braceDelta c = 0 := by simp [braceDelta, hc1, hc2]
          rw [hd] at hnet2 hmin2
          have harith2 : count + (0 : Int) = count := by omega
          rw [harith2] at hnet2 hmin2
          have := ih count (i + 1) j hj hget2 hnet2 hmin2
          rwa [harith] at this

instance (cs : List Char) : Decidable (neverCloses cs) := by
  unfold neverCloses
  infer_instance

instance (cs : List Char) : Decidable (isBalancedFragment cs) := by
  unfold isBalancedFragment
  infer_instance

theorem getD_append_left (l1 l2 : List Char) (n : Nat) (d : Char)
    (h : n < l1.length) : (l1 ++ l2).getD n d = l1.getD n d := by
  simp [List.getD_eq_getElem?_getD, List.getElem?_append_left h]

theorem balanced_two_le (s : List Char) (hb : isBalancedFragment s) :
    2 ≤ s.length := by
  obtain ⟨hne, hhead, hnet, hpos⟩ := hb
  rcases s with _ | ⟨c, _ | ⟨d, rest⟩⟩
  · exact absurd rfl hne
  · have hc : c = '{' := by simpa using hhead
    rw [hc] at hnet
    exact absurd hnet (by decide)
  · simp

theorem balanced_last_brace (s : List Char) (hb : isBalancedFragment s) :
    s.getD (s.length - 1) ' ' = '}' ∧ netCount (s.take (s.length - 1)) = 1 := by
  obtain ⟨hne, hhead, hnet, hpos⟩ := hb
  have h2 : 2 ≤ s.length := balanced_two_le s ⟨hne, hhead, hnet, hpos⟩
  have hm : s.length - 1 < s.length := by omega
  have hstep := netCount_take_succ s (s.length - 1) hm
  have hlen : s.length - 1 + 1 = s.length := by omega
  rw [hlen, List.take_length] at hstep
  have hposn := hpos (s.length - 1) (by omega) (by omega)
  have hbd := braceDelta_bounds (s.getD (s.length - 1) ' ')
  have hdelta : braceDelta (s.getD (s.length - 1) ' ') = -1 := by omega
  exact ⟨braceDelta_eq_neg_one _ hdelta, by omega⟩

theorem jsonExtract_balanced (s t : List Char) (hb : isBalancedFragment s) :
    jsonExtract (s ++ t) = some s := by
  obtain ⟨hne, hhead, hnet, hpos⟩ := hb
  have h2 : 2 ≤ s.length := balanced_two_le s ⟨hne, hhead, hnet, hpos⟩
  obtain ⟨hlastc, -⟩ := balanced_last_brace s ⟨hne, hhead, hnet, hpos⟩
  have hscan : scanOffset (s ++ t) 0 0 = some (1 + 0 + (s.length - 1)) := by
    apply scanOffset_some
    · rw [List.length_append]; omega
    · rw [getD_append_left s t _ ' ' (by omega)]
      exact hlastc
    · have hk1 : s.length - 1 + 1 = s.length := by omega
      rw [hk1, List.take_left]
      omega
    · intro j hj hcontra
      have htake : (s ++ t).take (j + 1) =
          s.take (j + 1) := List.take_append_of_le_length (by omega)
      rw [htake] at hcontra
      have hp := hpos (j + 1) (by omega) (by omega)
      have := hcontra.2
      omega
  rw [jsonExtract, find_json_offset, hscan]
  have hlen : 1 + 0 + (s.length - 1) = s.length := by omega
  rw [hlen]
  show some ((s ++ t).take s.length) = some s
  rw [List.take_left]

theorem neverCloses_scan_none (cs : List Char) (h : neverCloses cs) :
    scanOffset cs 0 0 = none := by
  apply scanOffset_none
  intro j hj hcontra
  exact h j hj ⟨hcontra.1, by have := hcontra.2; omega⟩

theorem jsonExtract_neverCloses (cs : List Char) (h : neverCloses cs) :
    jsonExtract cs = none := by
  rw [jsonExtract, find_json_offset, neverCloses_scan_none cs h]

/-- C3: where the text after the marker starts with a balanced-brace
fragment (depth first returns to zero at its final closing brace), the
boundary extractor returns exactly that fragment; where the braces never
return to depth zero at any closing brace, it signals failure (`None`) and
never returns a partial string. -/
theorem C3_extractor_exact_or_fail (s t cs : List Char) :
    (isBalancedFragment s → jsonExtract (s ++ t) = some s) ∧
    (neverCloses cs → jsonExtract cs = none) :=
  ⟨fun hb => jsonExtract_balanced s t hb,
   fun hn => jsonExtract_neverCloses cs hn⟩

theorem C3_extractor_exact_or_fail_witness :
    jsonExtract ['{', 'a', '}'] = some ['{', 'a', '}'] ∧
    jsonExtract ['{', 'a'] = none := by
  constructor
  · have := (C3_extractor_exact_or_fail ['{', 'a', '}'] [] ['{', 'a']).1 (by decide)
    simpa using this
  · exact (C3_extractor_exact_or_fail ['{', 'a', '}'] [] ['{', 'a']).2 (by decide)

theorem no_open_netCount_nonpos :
    ∀ (l : List Char), (∀ c ∈ l, c ≠ '{') → netCount l ≤ 0 := by
  intro l
  induction l with
  | nil => intro _; simp [netCount]
  | cons c rest ih =>
    intro h
    rw [netCount_cons]
    have hc := h c (by simp)
    have hd : braceDelta c ≤ 0 := by
      unfold braceDelta
      rw [if_neg hc]
      split_ifs <;> omega
    have := ih (fun x hx => h x (by simp [hx]))
    omega

theorem no_open_neverCloses (cs : List Char) (h : ∀ c ∈ cs, c ≠ '{') :
    neverCloses cs := by
  intro j hj hcontra
  have hstep := netCount_take_succ cs j hj
  have hnp : netCount (cs.take j) ≤ 0 :=
    no_open_netCount_nonpos _ (fun c hc => h c (List.take_subset j cs hc))
  have hd : braceDelta (cs.getD j ' ') = -1 := by
    rw [hcontra.1]; decide
  rw [hd] at hstep
  have := hcontra.2
  omega

theorem get_json_string_none (body : List Char)
    (h : scanOffset (body.drop ((pyFind body ytMarker + 18).toNat)) 0 0 = none) :
    get_json_string body = none := by
  simp [get_json_string, find_json_offset, h]

/-- C4 counterexample: a page body that does NOT contain the literal marker
`ytplayer.config = ` (its `find` returns `-1`) is not an extraction
failure: `start` becomes `-1 + 18 = 17`, the scan runs on the slice from
index 17, and a balanced object there is happily extracted. -/
theorem C4_counterexample :
    pyFind ("0123456789abcdefg\x7b\"a\":1\x7d").data ytMarker = -1 ∧
    get_json_string ("0123456789abcdefg\x7b\"a\":1\x7d").data =
      some (("\x7b\"a\":1\x7d").data) := by
  constructor
  · decide
  · rfl

/-- C4 amended: an absent marker does not by itself make extraction fail
(`find` yields `-1`, so the scan simply starts at index 17); extraction
returns `None` exactly on the scan's failure conditions over the sliced
text — in particular whenever no opening brace occurs in it, and whenever
no closing brace ever brings the depth back to zero; the scan is a total
structurally-recursive function of the input, so it terminates without
reading past the end. -/
theorem C4_amended_failure_conditions (body : List Char) :
    ((∀ c ∈ body.drop ((pyFind body ytMarker + 18).toNat), c ≠ '{') →
      get_json_string body = none) ∧
    (neverCloses (body.drop ((pyFind body ytMarker + 18).toNat)) →
      get_json_string body = none) := by
  constructor
  · intro h
    exact get_json_string_none body
      (neverCloses_scan_none _ (no_open_neverCloses _ h))
  · intro h
    exact get_json_string_none body (neverCloses_scan_none _ h)

theorem C4_amended_failure_conditions_witness :
    get_json_string ("hello").data = none ∧
    get_json_string ("aaaaaaaaaaaaaaaaa\x7b\x7b").data = none := by
  constructor
  · exact (C4_amended_failure_conditions ("hello").data).1 (by decide)
  · exact (C4_amended_failure_conditions ("aaaaaaaaaaaaaaaaa\x7b\x7b").data).2
      (by decide)

/-! ### `YouTube._get_cipher`

The method wraps locating, compiling and executing the signature-transform
function in one `try/except Exception`, re-raising everything as
`CipherError` with the cause formatted into the message.  The locator is
`re.search(r'\.sig\|\|([a-zA-Z0-9$]+)\(', js_code)`: a literal `.sig||`,
then a nonempty run of `[a-zA-Z0-9$]`, then a literal `(`.  Because the
character class excludes `(`, backtracking cannot shorten a maximal run into
a match, so the regex matches at a position exactly when the maximal
identifier run after `.sig||` is nonempty and is followed by `(`; `re.search`
takes the leftmost such position.  When there is no match, `funcname` is
never assigned and the later read raises `UnboundLocalError`, which the
`except` also converts to `CipherError`.  `JSInterpreter.extract_function`
and the returned function live in `jsinterp.py` (not part of these sources)
and are taken as a parameter covering every possible outcome. -/

/-- The regex character class `[a-zA-Z0-9$]`. -/
def isSigIdentChar (c : Char) : Bool :=
  ('a' ≤ c && c ≤ 'z') || ('A' ≤ c && c ≤ 'Z') || ('0' ≤ c && c ≤ '9') || c = '$'

/-- A match of `\.sig\|\|([a-zA-Z0-9$]+)\(` anchored at the head of the
text: the captured group, or `none`. -/
def sigMatchAt (cs : List Char) : Option (List Char) :=
  if (".sig||").data.isPrefixOf cs then
    let rest := cs.drop 6
    let name := rest.takeWhile isSigIdentChar
    if name ≠ [] ∧ (rest.drop name.length).head? = some '(' then some name
    else none
  else none

/-- `re.search` of the locator pattern: the leftmost match's captured
function name. -/
def sigSearch : List Char → Option (List Char)
  | [] => none
  | c :: rest =>
    match sigMatchAt (c :: rest) with
    | some name => some name
    | none => sigSearch rest

/-- The textual form of the caught exception interpolated as `%s` into the
`CipherError` message. -/
def pyErrStr : PyErr → String
  | .typeError => "TypeError"
  | .keyError => "KeyError"
  | .valueError => "ValueError"
  | .indexError => "IndexError"
  | .unboundLocalError => "local variable referenced before assignment"
  | .multipleObjectsReturned => "MultipleObjectsReturned"
  | .youTubeError msg => msg
  | .cipherError msg => msg
  | .jsError msg => msg

/-- The message of the raised `CipherError`, with the cause formatted in. -/
def cipherErrorMessage (cause : String) : String :=
  "Couldn't cipher the signature. Maybe YouTube has changed the cipher " ++
    "algorithm. Notify this issue on GitHub: " ++ cause

/-- The body of `_get_cipher`'s `try` block: locate the function name (an
unassigned `funcname` raises `UnboundLocalError`), compile it with the
(parameterised) `JSInterpreter.extract_function`, and run it on the
signature. -/
def cipherAttempt
    (extract_function : String → Except PyErr (String → Except PyErr String))
    (js_code : List Char) (signature : String) : Except PyErr String :=
  match sigSearch js_code with
  | none => .error .unboundLocalError
  | some funcname =>
    match extract_function (String.mk funcname) with
    | .error e => .error e
    | .ok initial_function => initial_function signature

/-- `YouTube._get_cipher` (given the already-fetched player script): the
`except Exception` clause turns every failure of the attempt into
`CipherError` with the cause in the message. -/
def get_cipher
    (extract_function : String → Except PyErr (String → Except PyErr String))
    (js_code : List Char) (signature : String) : Except PyErr String :=
  match cipherAttempt extract_function js_code signature with
  | .ok result => .ok result
  | .error e => .error (.cipherError (cipherErrorMessage (pyErrStr e)))

/-- C5: whatever the locate/compile/execute steps do — including the locator
pattern finding no match, which ends in an `UnboundLocalError` on the never
assigned `funcname` — `_get_cipher` either returns a deciphered signature or
raises `CipherError` carrying the underlying cause; no other exception kind
escapes, and a failed locator never proceeds with a guessed name. -/
theorem C5_cipher_errors_wrapped
    (extract_function : String → Except PyErr (String → Except PyErr String))
    (js_code : List Char) (signature : String) :
    ((∃ s, get_cipher extract_function js_code signature = .ok s) ∨
      (∃ msg, get_cipher extract_function js_code signature =
        .error (.cipherError msg))) ∧
    (sigSearch js_code = none →
      get_cipher extract_function js_code signature =
        .error (.cipherError (cipherErrorMessage
          (pyErrStr .unboundLocalError)))) := by
  constructor
  · unfold get_cipher
    match cipherAttempt extract_function js_code signature with
    | .ok r => exact Or.inl ⟨r, rfl⟩
    | .error e => exact Or.inr ⟨_, rfl⟩
  · intro h
    have hatt : cipherAttempt extract_function js_code signature =
        .error .unboundLocalError := by
      unfold cipherAttempt
      rw [h]
    unfold get_cipher
    rw [hatt]

theorem C5_cipher_errors_wrapped_witness :
    get_cipher (fun _ => .ok (fun s => .ok s)) (("xyz").data) "abc" =
      .error (.cipherError (cipherErrorMessage
        (pyErrStr .unboundLocalError))) :=
  (C5_cipher_errors_wrapped (fun _ => .ok (fun s => .ok s))
    (("xyz").data) "abc").2 (by decide)

/-! ### `YouTube._extract_fmt` and the resolution loop of `_get_video_info`

`_extract_fmt` runs `re.findall('itag=(\d+)', text)`: every non-overlapping
occurrence of the literal `itag=` followed by a maximal nonempty digit run,
left to right.  Exactly one match yields `(itag, YT_ENCODING-row-or-None)`;
zero or several matches fall through and the method implicitly returns
`None`, so the caller's tuple unpacking raises `TypeError` (caught).  The
loop of `_get_video_info` then completes the URL signature if needed and
constructs `Video(url, self.filename, **fmt_data)` — for an itag absent
from the catalog `fmt_data` is `None`, and `**None` raises an uncaught
`TypeError`.  (The parallel `self._fmt_values` bookkeeping has no effect on
the video list and is not carried.)  The scan is written with a character
budget (`fuel`, initially the text length, amply enough as each step
consumes at least one character) so that it stays structurally
recursive. -/

/-- Python `int` of a digit string. -/
def digitsToNat (ds : List Char) : Nat :=
  ds.foldl (fun acc c => acc * 10 + (c.toNat - 48)) 0

/-- One `re.findall('itag=(\d+)', text)` scan step with a step budget. -/
def findAllItagAux : Nat → List Char → List Nat
  | 0, _ => []
  | _, [] => []
  | fuel + 1, c :: rest =>
    if ("itag=").data.isPrefixOf (c :: rest) then
      let ds := (rest.drop 4).takeWhile Char.isDigit
      if ds = [] then findAllItagAux fuel rest
      else digitsToNat ds :: findAllItagAux fuel ((rest.drop 4).drop ds.length)
    else findAllItagAux fuel rest

/-- `re.findall('itag=(\d+)', text)`, every match converted by `int`. -/
def findAllItag (cs : List Char) : List Nat := findAllItagAux cs.length cs

/-- `YouTube._extract_fmt`: `none` models the implicit `return None` (zero
or several `itag` matches); otherwise the itag with its catalog row, the row
being `none` on a catalog miss. -/
def extract_fmt (text : String) : Option (Nat × Option FormatDescriptor) :=
  match findAllItag text.data with
  | [n] =>
    match YT_ENCODING n with
    | none => some (n, none)
    | some attr => some (n, some attr)
  | _ => none

/-- Python's `sub in s` substring test. -/
def pyContains (s sub : String) : Bool :=
  (findSubAux sub.data s.data 0).isSome

/-- The `for i, url in enumerate(video_urls)` loop of `_get_video_info`:
`cipher` abstracts `_get_cipher` (which may raise), `sList` is
`stream_map["s"]` (an out-of-range index raises `IndexError`), a failed
tuple unpacking of `_extract_fmt`'s `None` is the caught
`TypeError`/`KeyError` and skips the stream, and `Video(url, filename,
**None)` on a catalog miss raises an uncaught `TypeError`. -/
def resolveLoop (cipher : String → Except PyErr String) (filename : String)
    (sList : List String) (urls : List String) (i : Nat)
    (videos : List Video) : Except PyErr (List Video) :=
  match urls with
  | [] => .ok videos
  | url :: rest =>
    match extract_fmt url with
    | none => resolveLoop cipher filename sList rest (i + 1) videos
    | some (_, fmt_data) =>
      match (if pyContains url "signature=" then .ok url
             else
               match sList.get? i with
               | none => .error .indexError
               | some s =>
                 match cipher s with
                 | .ok sg => .ok (url ++ "&signature=" ++ sg)
                 | .error e => .error e : Except PyErr String) with
      | .error e => .error e
      | .ok url2 =>
        match fmt_data with
        | none => .error .typeError
        | some fd =>
          resolveLoop cipher filename sList rest (i + 1)
            (videos ++ [mkVideo url2 filename fd])

/-- The numeric height of a resolution label such as `720p` (its leading
digits; `0` when there are none, as for `N/A`). -/
def resolutionHeight (r : String) : Nat :=
  digitsToNat (r.data.takeWhile Char.isDigit)

/-- Modelled from the spec: the comparison that `self.videos.sort()` uses —
the `Video` ordering lives in `models.py`, which is not among these sources;
the spec defines it as primary key numeric resolution height descending and
secondary key a fixed priority per container extension (here an arbitrary
fixed `prio` table), with a deterministic, stable tie-break. -/
def videoLe (prio : String → Nat) (a b : Video) : Prop :=
  resolutionHeight b.resolution < resolutionHeight a.resolution ∨
    (resolutionHeight a.resolution = resolutionHeight b.resolution ∧
      prio a.extension ≤ prio b.extension)

instance (prio : String → Nat) : DecidableRel (videoLe prio) := fun a b => by
  unfold videoLe
  infer_instance

instance (prio : String → Nat) : IsTotal Video (videoLe prio) := by
  constructor
  intro a b
  unfold videoLe
  rcases Nat.lt_trichotomy (resolutionHeight a.resolution)
    (resolutionHeight b.resolution) with h | h | h
  · exact Or.inr (Or.inl h)
  · rcases Nat.le_total (prio a.extension) (prio b.extension) with hp | hp
    · exact Or.inl (Or.inr ⟨h, hp⟩)
    · exact Or.inr (Or.inr ⟨h.symm, hp⟩)
  · exact Or.inl (Or.inl h)

instance (prio : String → Nat) : IsTrans Video (videoLe prio) := by
  constructor
  intro a b c hab hbc
  unfold videoLe at hab hbc ⊢
  rcases hab with h1 | ⟨h1, p1⟩ <;> rcases hbc with h2 | ⟨h2, p2⟩
  · exact Or.inl (by omega)
  · exact Or.inl (by omega)
  · exact Or.inl (by omega)
  · exact Or.inr ⟨by omega, Nat.le_trans p1 p2⟩

/-- The videos part of `_get_video_info` given the already decoded stream
map: run the loop over `stream_map["url"]`, then `self.videos.sort()` (the
sort uses the spec-modelled ordering, stable insertion sort as Python's
sort is stable). -/
def resolveVideos (prio : String → Nat) (cipher : String → Except PyErr String)
    (filename : String) (urls sList : List String) :
    Except PyErr (List Video) :=
  match resolveLoop cipher filename sList urls 0 [] with
  | .error e => .error e
  | .ok videos => .ok (videos.insertionSort (videoLe prio))

/-- C1 (code bug): an itag present exactly once but absent from the format
catalog does NOT get skipped — `_extract_fmt` returns `(itag, None)`, the
tuple unpacking succeeds, and `Video(url, self.filename, **None)` raises an
uncaught `TypeError`, so the whole resolution fails even though the other
stream is valid; a lone valid stream resolves fine. -/
theorem C1_unknown_itag_crashes_resolution :
    resolveVideos (fun _ => 0) (fun s => .ok s) "f"
      ["itag=22&signature=x", "itag=7&signature=y"] [] = .error .typeError ∧
    YT_ENCODING 7 = none ∧
    resolveVideos (fun _ => 0) (fun s => .ok s) "f"
      ["itag=22&signature=x"] [] =
      .ok [mkVideo "itag=22&signature=x" "f"
        ⟨"mp4", "720p", "H.264", "High", "2-2.9", "AAC", "192"⟩] :=
  ⟨rfl, rfl, rfl⟩

/-- C7: whenever resolution completes, the returned stream list is sorted
by the total order with primary key numeric resolution height descending
and secondary key the fixed per-extension priority (spec-modelled `Video`
comparison), so the best available stream comes first. -/
theorem C7_resolved_list_sorted (prio : String → Nat)
    (cipher : String → Except PyErr String) (filename : String)
    (urls sList : List String) (out : List Video)
    (h : resolveVideos prio cipher filename urls sList = .ok out) :
    List.Sorted (videoLe prio) out := by
  unfold resolveVideos at h
  match hl : resolveLoop cipher filename sList urls 0 [] with
  | .error e => rw [hl] at h; cases h
  | .ok videos =>
    rw [hl] at h
    have : videos.insertionSort (videoLe prio) = out := by
      injection h
    rw [← this]
    exact List.sorted_insertionSort (videoLe prio) videos

theorem C7_resolved_list_sorted_witness :
    List.Sorted (videoLe (fun _ => 0))
      [mkVideo "itag=22&signature=x" "f"
        ⟨"mp4", "720p", "H.264", "High", "2-2.9", "AAC", "192"⟩,
       mkVideo "itag=18&signature=y" "f"
        ⟨"mp4", "360p", "H.264", "Baseline", "0.5", "AAC", "96"⟩] :=
  C7_resolved_list_sorted (fun _ => 0) (fun s => .ok s) "f"
    ["itag=18&signature=y", "itag=22&signature=x"] []
    [mkVideo "itag=22&signature=x" "f"
      ⟨"mp4", "720p", "H.264", "High", "2-2.9", "AAC", "192"⟩,
     mkVideo "itag=18&signature=y" "f"
      ⟨"mp4", "360p", "H.264", "Baseline", "0.5", "AAC", "96"⟩] rfl

end Pytube
